import Mathlib

/-!
Shallow embedding of `utils/plot_baseten_vs_b200.py` (InferenceMAX).

The script loads two series of benchmark records, selects one representative
B200-TensorRT record per concurrency, normalizes throughput for comparison,
and renders two charts.  Only the data-reconciliation logic is embedded here;
plotting calls are side effects with no influence on the numeric values.

Modelling conventions:
* a JSON record is a structure whose possibly-absent fields are `Option`;
  the Python reads `r.get(key, default)`, embedded as `Option.getD`;
* Python `dict` (insertion ordered, value update keeps the key's position)
  is an association list `List (Int × BRec)` where a fresh key is appended
  and an update rewrites the value in place;
* Python's stable `sort`/`sorted` by an integer key is `sSort`, a stable
  insertion sort defined below;
* floats are modelled as `ℚ` (no claim here depends on rounding).
-/

namespace PlotBasetenVsB200

/-- One record of the InferenceMAX aggregated JSON array (Series B).
Fields carry the JSON keys read by the script; each is optional because the
source reads them with `r.get(key, default)`. -/
structure BRec where
  hw : Option String
  framework : Option String
  conc : Option Int
  tp : Option Int
  tput_per_gpu : Option ℚ
  median_e2el : Option ℚ
deriving DecidableEq

/-- Defaulted read `r.get('conc', 0)`. -/
def BRec.concD (r : BRec) : Int := r.conc.getD 0

/-- Defaulted read `r.get('tp', 0)`. -/
def BRec.tpD (r : BRec) : Int := r.tp.getD 0

/-- Defaulted read `r.get('tput_per_gpu', 0)`. -/
def BRec.tputPerGpuD (r : BRec) : ℚ := r.tput_per_gpu.getD 0

/-- Defaulted read `r.get('median_e2el', 0)`. -/
def BRec.e2elD (r : BRec) : ℚ := r.median_e2el.getD 0

/-- Hardware-class filter of `load_b200_trt_results`:
`r.get('hw') == 'b200-trt' or r.get('hw') == 'b200-nvs' or
 (r.get('hw') == 'b200' and r.get('framework') == 'trt')`. -/
def isB200Trt (r : BRec) : Bool :=
  r.hw == some "b200-trt" || r.hw == some "b200-nvs" ||
    (r.hw == some "b200" && r.framework == some "trt")

/-- Rewrite in place the value stored at key `k` (Python
`best_by_conc[conc] = r` on an existing key: the key keeps its position). -/
def replaceKey (m : List (Int × BRec)) (k : Int) (r : BRec) : List (Int × BRec) :=
  m.map fun p => if p.1 = k then (k, r) else p

/-- One iteration of the selection loop of `load_b200_trt_results`
(lines 66-79): first record for a concurrency wins, a TP8 record always
replaces, otherwise a strictly better per-GPU throughput replaces a non-TP8
best.  Total variant: the stored record's throughput is read with the 0
default, whereas the source indexes `best_by_conc[conc]['tput_per_gpu']`
directly and raises KeyError when the stored record lacks the field.  The
faithful partial step is `updateBestE` below; `updateBestE_agrees` proves
the two coincide on every run where the source does not crash. -/
def updateBest (m : List (Int × BRec)) (r : BRec) : List (Int × BRec) :=
  match m.find? (fun p => p.1 == r.concD) with
  | none => m ++ [(r.concD, r)]
  | some p =>
      if r.tpD = 8 then replaceKey m r.concD r
      else if p.2.tpD ≠ 8 ∧ r.tputPerGpuD > p.2.tputPerGpuD then replaceKey m r.concD r
      else m

/-- Faithful (partial) selection step: `none` models the uncaught KeyError
of `best_by_conc[conc]['tput_per_gpu']` (line 77), reached only when the
stored best's degree is not 8 (Python's `and` short-circuits on the left
conjunct `best_by_conc[conc].get('tp', 0) != 8`) and the stored record has
no per-unit-throughput field. -/
def updateBestE (m : List (Int × BRec)) (r : BRec) : Option (List (Int × BRec)) :=
  match m.find? (fun p => p.1 == r.concD) with
  | none => some (m ++ [(r.concD, r)])
  | some p =>
      if r.tpD = 8 then some (replaceKey m r.concD r)
      else if p.2.tpD = 8 then some m
      else
        match p.2.tput_per_gpu with
        | none => none
        | some t => if r.tputPerGpuD > t then some (replaceKey m r.concD r) else some m

/-- The `best_by_conc` dictionary after the whole loop (total variant). -/
def bestByConc (rs : List BRec) : List (Int × BRec) :=
  rs.foldl updateBest []

/-- The `best_by_conc` dictionary after the whole loop, `none` when some
iteration raises KeyError. -/
def bestByConcE (rs : List BRec) : Option (List (Int × BRec)) :=
  List.foldlM updateBestE [] rs

/-- Stable insertion of `a` into a list sorted by `key`: `a` goes before the
first element with a strictly larger key, hence after earlier elements with
an equal key. -/
def sInsert (key : α → Int) (a : α) : List α → List α
  | [] => [a]
  | b :: l => if key b < key a then b :: sInsert key a l else a :: b :: l

/-- Stable sort by an integer key, matching Python's stable `sorted`. -/
def sSort (key : α → Int) : List α → List α
  | [] => []
  | a :: l => sInsert key a (sSort key l)

/-- `load_b200_trt_results`: filter to the B200-TensorRT class, keep one best
record per concurrency, and return those sorted ascending by `conc` together
with every filtered record. -/
def load_b200_trt_results (rs : List BRec) : List BRec × List BRec :=
  let b200_trt := rs.filter isB200Trt
  (sSort BRec.concD ((bestByConc b200_trt).map Prod.snd), b200_trt)

/-- `load_b200_trt_results` with the crash path kept: `none` when the
selection loop raises KeyError (which propagates out of the function and,
uncaught, terminates the process). -/
def load_b200_trt_resultsE (rs : List BRec) : Option (List BRec × List BRec) :=
  match bestByConcE (rs.filter isB200Trt) with
  | none => none
  | some best => some (sSort BRec.concD (best.map Prod.snd), rs.filter isB200Trt)

/-- One JSON file of the Baseten results directory (Series A): the parsed
record together with the file's stem, from which a concurrency may be
recovered. -/
structure AFile where
  stem : String
  max_concurrency : Option Int
  completed : Option Int
  total_requests : Option Int
  num_prompts : Option Int
  total_token_throughput : Option ℚ
  median_e2el_ms : Option ℚ
deriving DecidableEq

/-- A loaded Series-A record: the file's fields with the resolved
`result['concurrency'] = conc` added. -/
structure ARec where
  concurrency : Int
  completed : Option Int
  total_requests : Option Int
  num_prompts : Option Int
  total_token_throughput : Option ℚ
  median_e2el_ms : Option ℚ
deriving DecidableEq

/-- Attach the resolved concurrency to a parsed file. -/
def mkARec (f : AFile) (c : Int) : ARec :=
  { concurrency := c
    completed := f.completed
    total_requests := f.total_requests
    num_prompts := f.num_prompts
    total_token_throughput := f.total_token_throughput
    median_e2el_ms := f.median_e2el_ms }

/-- Numeric value of one decimal digit character. -/
def digitVal (c : Char) : Nat := c.toNat - '0'.toNat

/-- Value of a run of decimal digit characters, most significant first. -/
def digitsToNat (l : List Char) : Nat :=
  l.foldl (fun n c => 10 * n + digitVal c) 0

/-- Try to match the regex `conc(\d+)` anchored at the head of the character
list: the literal letters `conc` followed by a maximal nonempty digit run. -/
def matchConcAt : List Char → Option Nat
  | 'c' :: 'o' :: 'n' :: 'c' :: rest =>
      let ds := rest.takeWhile Char.isDigit
      if ds.isEmpty then none else some (digitsToNat ds)
  | _ => none

/-- `re.search(r'conc(\d+)', stem)`: leftmost match wins. -/
def searchConc : List Char → Option Nat
  | [] => none
  | c :: rest =>
      match matchConcAt (c :: rest) with
      | some n => some n
      | none => searchConc rest

/-- Concurrency resolution of `load_baseten_results`: prefer the
`max_concurrency` field, else extract from the filename stem. -/
def resolveConc (f : AFile) : Option Int :=
  match f.max_concurrency with
  | some c => some c
  | none => (searchConc f.stem.toList).map Int.ofNat

/-- `load_baseten_results`: keep the files whose concurrency resolves
(the others are dropped), then sort ascending by concurrency with Python's
stable sort.  Per-file read errors are outside the data model: `files` holds
the records that parsed. -/
def load_baseten_results (files : List AFile) : List ARec :=
  sSort ARec.concurrency (files.filterMap fun f => (resolveConc f).map (mkARec f))

/-- Defaulted read `result.get('completed', 0)`. -/
def ARec.completedD (r : ARec) : Int := r.completed.getD 0

/-- The resolved total-request count
`result.get('total_requests', result.get('num_prompts', completed))`. -/
def resolveTotal (r : ARec) : Int :=
  r.total_requests.getD (r.num_prompts.getD r.completedD)

/-- Reliability filter of the plotting loops (lines 133-140 and 265-272):
a record is skipped when fewer than 10 requests completed, or when the
resolved total is positive and the completion ratio is below one half. -/
def isUnreliable (r : ARec) : Prop :=
  r.completedD < 10 ∨
    (0 < resolveTotal r ∧ (r.completedD : ℚ) / (resolveTotal r : ℚ) < 1 / 2)

instance (r : ARec) : Decidable (isUnreliable r) := by
  unfold isUnreliable; infer_instance

/-- A known total-request count is present (either JSON key). -/
def hasKnownTotal (r : ARec) : Prop :=
  r.total_requests.isSome ∨ r.num_prompts.isSome

instance (r : ARec) : Decidable (hasKnownTotal r) := by
  unfold hasKnownTotal; infer_instance

/-- Modelled from the spec's words (for comparison with `isUnreliable`):
excluded iff completed is below 10, or a known total-request count is
present and the completion ratio is below one half. -/
def specExcluded (r : ARec) : Prop :=
  r.completedD < 10 ∨
    (hasKnownTotal r ∧ (r.completedD : ℚ) / (resolveTotal r : ℚ) < 1 / 2)

/-- The TP degree used by Series B's best record at a given concurrency
(lines 148-152: linear scan, first match, `None` when absent). -/
def b200TpAtConc (best : List BRec) (conc : Int) : Option Int :=
  (best.find? (fun r => r.concD == conc)).map BRec.tpD

/-- The fixed accelerator-unit count `BASETEN_GPU_COUNT = 8`. -/
def BASETEN_GPU_COUNT : ℚ := 8

/-- Series A comparable throughput (lines 154-158): per-GPU when B's best at
the same concurrency used TP8, the aggregate otherwise (also when no B record
exists at that concurrency, where the lookup yields `none`). -/
def basetenTputValue (best : List BRec) (r : ARec) : ℚ :=
  if b200TpAtConc best r.concurrency = some 8 then
    r.total_token_throughput.getD 0 / BASETEN_GPU_COUNT
  else r.total_token_throughput.getD 0

/-- The Series-A points accumulated by the plotting loop (lines 128-162):
skip concurrency 0, skip unreliable records, else emit
(concurrency, comparable throughput, latency in seconds). -/
def basetenPoints (best : List BRec) (results : List ARec) : List (Int × ℚ × ℚ) :=
  results.filterMap fun r =>
    if r.concurrency = 0 then none
    else if isUnreliable r then none
    else some (r.concurrency, basetenTputValue best r, r.median_e2el_ms.getD 0 / 1000)

/-- Series B comparable throughput in the clean chart (lines 107-116):
per-GPU as-is for TP8, per-GPU times the degree otherwise. -/
def b200TputValue (r : BRec) : ℚ :=
  if r.tpD = 8 then r.tputPerGpuD else r.tputPerGpuD * (r.tpD : ℚ)

/-- Throughput of one Series-B point in the detailed chart: the per-GPU
field as-is (lines 246 and 251, and line 313 for the best records). -/
def detailedTput (r : BRec) : ℚ := r.tputPerGpuD

/-- The throughput list of all filtered Series-B points in the detailed
chart (lines 244-253). -/
def detailedAllTputs (rs : List BRec) : List ℚ := rs.map detailedTput

/-- The throughput list of the highlighted best records in the detailed
chart (line 313). -/
def detailedBestTputs (best : List BRec) : List ℚ := best.map detailedTput

/-- Exit status of `main` over already-parsed inputs: `argc` is the length
of `sys.argv`, the two Booleans are the existence checks of the two paths,
`files` is the parsed content of the Series-A directory, `bData` the parsed
Series-B array.  Mirrors lines 376-421: usage check, two path checks, the
two loads, then the two emptiness checks; when all pass, the plots are
written and the process ends with status 0.  An uncaught KeyError in Loader
B's selection loop terminates the process with a traceback and status 1
before the emptiness checks run, modelled by the `none` branch. -/
def mainExitCode (argc : Nat) (dirExists jsonExists : Bool)
    (files : List AFile) (bData : List BRec) : Nat :=
  if argc < 3 then 1
  else if !dirExists then 1
  else if !jsonExists then 1
  else
    match load_b200_trt_resultsE bData with
    | none => 1
    | some pr =>
        if (load_baseten_results files).isEmpty then 1
        else if pr.1.isEmpty then 1
        else 0

/-- The record currently stored in the dictionary for key `k` (the Python
`best_by_conc[conc]` read). -/
def bestAt (m : List (Int × BRec)) (k : Int) : Option BRec :=
  (m.find? (fun p => p.1 == k)).map Prod.snd

/-- Invariant of the `best_by_conc` dictionary: keys are distinct and every
stored record's defaulted concurrency equals its key. -/
def InvB (m : List (Int × BRec)) : Prop :=
  (m.map Prod.fst).Nodup ∧ ∀ p ∈ m, BRec.concD p.2 = p.1

/-! Concrete sample records used in scenario theorems. -/

/-- Series-B record: concurrency 16, TP 2, 500 tokens per second per GPU. -/
def b16tp2 : BRec := ⟨some "b200-trt", none, some 16, some 2, some 500, some 1⟩

/-- Series-B record: concurrency 16, TP 8, 400 tokens per second per GPU. -/
def b16tp8 : BRec := ⟨some "b200-trt", none, some 16, some 8, some 400, some 2⟩

/-- Series-B record: concurrency 16, TP 8, 500 per GPU (early candidate). -/
def b16tp8Early : BRec := ⟨some "b200-trt", none, some 16, some 8, some 500, some 1⟩

/-- Series-B record: concurrency 16, TP 8, 400 per GPU (later candidate). -/
def b16tp8Late : BRec := ⟨some "b200-trt", none, some 16, some 8, some 400, some 2⟩

/-- Series-B record: concurrency 32, TP 2, 300 per GPU. -/
def b32tp2 : BRec := ⟨some "b200-trt", none, some 32, some 2, some 300, some 1⟩

/-- Series-B record: concurrency 16, TP 1, 300 per GPU. -/
def b16tp1 : BRec := ⟨some "b200-trt", none, some 16, some 1, some 300, some 1⟩

/-- Series-B record: concurrency 4, TP 8, 100 per GPU. -/
def b4tp8 : BRec := ⟨some "b200-trt", none, some 4, some 8, some 100, some 1⟩

/-- Series-A record at concurrency 5 that passes the reliability filter
(20 completed, no total-request field). -/
def aConc5 : ARec := ⟨5, some 20, none, none, some 800, some 2000⟩

/-- Series-A record at concurrency 5 that passes the reliability filter,
with an explicit total-request count of 0 (so the filter shortcuts). -/
def aConc5Tot0 : ARec := ⟨5, some 20, some 0, none, some 800, some 2000⟩

/-- Series-A input file whose record completes 0 requests: it loads (the
stem resolves concurrency 4) but fails the reliability filter. -/
def aFileUnreliable : AFile := ⟨"run_conc4", none, some 0, none, none, some 100, some 1000⟩

/-- Series-B record carrying only the hardware tag: it passes the hardware
filter but has no conc, tp or per-unit-throughput field. -/
def bareB200 : BRec := ⟨some "b200-trt", none, none, none, none, none⟩

/-! Helper lemmas about the stable sort. -/

theorem mem_sInsert {key : α → Int} {a x : α} {l : List α} :
    x ∈ sInsert key a l ↔ x = a ∨ x ∈ l := by
  induction l with
  | nil => simp [sInsert]
  | cons b t ih =>
      simp only [sInsert]
      split
      · rw [List.mem_cons, ih, List.mem_cons]
        tauto
      · exact List.mem_cons

theorem perm_sInsert (key : α → Int) (a : α) (l : List α) :
    List.Perm (sInsert key a l) (a :: l) := by
  induction l with
  | nil => exact List.Perm.refl _
  | cons b t ih =>
      simp only [sInsert]
      split
      · exact (ih.cons b).trans (List.Perm.swap a b t)
      · exact List.Perm.refl _

theorem perm_sSort (key : α → Int) (l : List α) : List.Perm (sSort key l) l := by
  induction l with
  | nil => exact List.Perm.refl _
  | cons a t ih => exact (perm_sInsert key a (sSort key t)).trans (ih.cons a)

theorem pairwise_sInsert {key : α → Int} {a : α} {l : List α}
    (h : l.Pairwise fun x y => key x ≤ key y) :
    (sInsert key a l).Pairwise fun x y => key x ≤ key y := by
  induction l with
  | nil => simp [sInsert]
  | cons b t ih =>
      rw [List.pairwise_cons] at h
      simp only [sInsert]
      split
      · rename_i hba
        refine List.pairwise_cons.mpr ⟨?_, ih h.2⟩
        intro x hx
        rcases mem_sInsert.mp hx with rfl | hx
        · exact le_of_lt hba
        · exact h.1 x hx
      · rename_i hba
        push_neg at hba
        refine List.pairwise_cons.mpr ⟨?_, List.pairwise_cons.mpr h⟩
        intro x hx
        rcases List.mem_cons.mp hx with rfl | hx
        · exact hba
        · exact hba.trans (h.1 x hx)

theorem sorted_sSort (key : α → Int) (l : List α) :
    (sSort key l).Pairwise fun x y => key x ≤ key y := by
  induction l with
  | nil => simp [sSort]
  | cons a t ih => exact pairwise_sInsert ih

/-! Helper lemmas about the best-per-concurrency dictionary. -/

theorem fst_replaceKey (m : List (Int × BRec)) (k : Int) (r : BRec) :
    (replaceKey m k r).map Prod.fst = m.map Prod.fst := by
  unfold replaceKey
  induction m with
  | nil => rfl
  | cons p t ih =>
      simp only [List.map_cons, ih]
      congr 1
      split
      · rename_i hp; exact hp.symm
      · rfl

theorem mem_replaceKey {m : List (Int × BRec)} {k : Int} {r : BRec} {p : Int × BRec}
    (hp : p ∈ replaceKey m k r) : p = (k, r) ∨ p ∈ m := by
  unfold replaceKey at hp
  rcases List.mem_map.mp hp with ⟨q, hq, rfl⟩
  split
  · exact Or.inl rfl
  · exact Or.inr hq

theorem find?_replaceKey (m : List (Int × BRec)) (c k : Int) (r : BRec) :
    (replaceKey m c r).find? (fun p => p.1 == k) =
      (m.find? (fun p => p.1 == k)).map fun p => if p.1 = c then (c, r) else p := by
  unfold replaceKey
  have hpred : ((fun p : Int × BRec => p.1 == k) ∘ fun p => if p.1 = c then (c, r) else p) =
      fun p : Int × BRec => p.1 == k := by
    funext p
    simp only [Function.comp_apply]
    split
    · rename_i hq; rw [← hq]
    · rfl
  rw [List.find?_map, hpred]

theorem find?_append_left {p : β → Bool} {l₁ l₂ : List β} {b : β}
    (h : l₁.find? p = some b) : (l₁ ++ l₂).find? p = some b := by
  rw [List.find?_append, h]
  rfl

theorem invB_nil : InvB [] := ⟨List.nodup_nil, by simp⟩

theorem invB_replaceKey {m : List (Int × BRec)} {r : BRec} (h : InvB m)
    (hk : BRec.concD r = k) : InvB (replaceKey m k r) := by
  constructor
  · rw [fst_replaceKey]
    exact h.1
  · intro p hp
    rcases mem_replaceKey hp with rfl | hp
    · exact hk
    · exact h.2 p hp

theorem invB_updateBest {m : List (Int × BRec)} (r : BRec) (h : InvB m) :
    InvB (updateBest m r) := by
  rcases hfind : m.find? (fun p => p.1 == r.concD) with _ | q
  · unfold updateBest
    rw [hfind]
    show InvB (m ++ [(r.concD, r)])
    constructor
    · rw [List.map_append]
      refine List.Nodup.append h.1 (List.nodup_singleton _) ?_
      intro x hx hx'
      simp only [List.map_cons, List.map_nil, List.mem_singleton] at hx'
      subst hx'
      rcases List.mem_map.mp hx with ⟨p, hp, hpx⟩
      have hnone := List.find?_eq_none.mp hfind p hp
      exact hnone (by simpa using hpx)
    · intro p hp
      rcases List.mem_append.mp hp with hp | hp
      · exact h.2 p hp
      · rw [List.mem_singleton.mp hp]
  · unfold updateBest
    rw [hfind]
    show InvB (if r.tpD = 8 then replaceKey m r.concD r
      else if q.2.tpD ≠ 8 ∧ r.tputPerGpuD > q.2.tputPerGpuD then replaceKey m r.concD r
      else m)
    split_ifs with h8 hc
    · exact invB_replaceKey h rfl
    · exact invB_replaceKey h rfl
    · exact h

theorem invB_foldl (rs : List BRec) :
    ∀ m, InvB m → InvB (rs.foldl updateBest m) := by
  induction rs with
  | nil => exact fun m h => h
  | cons r t ih => exact fun m h => ih _ (invB_updateBest r h)

theorem invB_bestByConc (rs : List BRec) : InvB (bestByConc rs) :=
  invB_foldl rs [] invB_nil

/-- The record found by `bestAt` has the looked-up key. -/
theorem bestAt_key {m : List (Int × BRec)} {k : Int} {q : Int × BRec}
    (hq : m.find? (fun p => p.1 == k) = some q) : q.1 = k := by
  simpa using List.find?_some hq

/-- A selection step never touches the entry of a different concurrency. -/
theorem bestAt_updateBest_other {m : List (Int × BRec)} {r : BRec} {k : Int}
    (hk : k ≠ r.concD) : bestAt (updateBest m r) k = bestAt m k := by
  rcases hfind : m.find? (fun p => p.1 == r.concD) with _ | p
  · unfold updateBest
    rw [hfind]
    show bestAt (m ++ [(r.concD, r)]) k = bestAt m k
    unfold bestAt
    rw [List.find?_append]
    have hne : ((r.concD : Int) == k) = false := beq_eq_false_iff_ne.mpr (Ne.symm hk)
    simp [hne]
  · have hrep : bestAt (replaceKey m r.concD r) k = bestAt m k := by
      unfold bestAt
      rw [find?_replaceKey]
      rcases hq : m.find? (fun p => p.1 == k) with _ | q
      · rw [hq]
        rfl
      · have hqk := bestAt_key hq
        rw [hq]
        simp [hqk, hk]
    unfold updateBest
    rw [hfind]
    show bestAt (if r.tpD = 8 then replaceKey m r.concD r
      else if p.2.tpD ≠ 8 ∧ r.tputPerGpuD > p.2.tputPerGpuD then replaceKey m r.concD r
      else m) k = bestAt m k
    split_ifs with h8 hc
    · exact hrep
    · exact hrep
    · rfl

/-- A TP8 candidate always replaces the stored best for its concurrency. -/
theorem bestAt_updateBest_tp8 {m : List (Int × BRec)} {r cur : BRec}
    (h : bestAt m r.concD = some cur) (h8 : r.tpD = 8) :
    bestAt (updateBest m r) r.concD = some r := by
  unfold bestAt at h
  rcases hfind : m.find? (fun p => p.1 == r.concD) with _ | q
  · rw [hfind] at h
    exact absurd h (by simp)
  · have hqk := bestAt_key hfind
    unfold updateBest
    rw [hfind]
    show bestAt (if r.tpD = 8 then replaceKey m r.concD r
      else if q.2.tpD ≠ 8 ∧ r.tputPerGpuD > q.2.tputPerGpuD then replaceKey m r.concD r
      else m) r.concD = some r
    rw [if_pos h8]
    unfold bestAt
    rw [find?_replaceKey, hfind]
    simp [hqk]

/-- A non-TP8 candidate never displaces a stored TP8 best. -/
theorem bestAt_updateBest_keep {m : List (Int × BRec)} {r cur : BRec}
    (h : bestAt m r.concD = some cur) (h8 : cur.tpD = 8) (hn8 : r.tpD ≠ 8) :
    bestAt (updateBest m r) r.concD = some cur := by
  unfold bestAt at h
  rcases hfind : m.find? (fun p => p.1 == r.concD) with _ | q
  · rw [hfind] at h
    exact absurd h (by simp)
  · rw [hfind] at h
    have hq2 : q.2 = cur := by simpa using h
    unfold updateBest
    rw [hfind]
    show bestAt (if r.tpD = 8 then replaceKey m r.concD r
      else if q.2.tpD ≠ 8 ∧ r.tputPerGpuD > q.2.tputPerGpuD then replaceKey m r.concD r
      else m) r.concD = some cur
    rw [if_neg hn8, if_neg]
    · unfold bestAt
      rw [hfind]
      exact h
    · rintro ⟨hq8, _⟩
      rw [hq2] at hq8
      exact hq8 h8

/-! Agreement of the total selection step with the faithful partial one:
whenever the source does not raise, the two compute the same dictionary. -/

theorem updateBestE_agrees {m m' : List (Int × BRec)} {r : BRec}
    (h : updateBestE m r = some m') : updateBest m r = m' := by
  unfold updateBestE at h
  unfold updateBest
  rcases hfind : m.find? (fun p => p.1 == r.concD) with _ | p
  · simp only [hfind] at h ⊢
    exact Option.some.inj h
  · simp only [hfind] at h ⊢
    by_cases h8 : r.tpD = 8
    · rw [if_pos h8] at h ⊢
      exact Option.some.inj h
    · rw [if_neg h8] at h ⊢
      by_cases hp8 : p.2.tpD = 8
      · rw [if_pos hp8] at h
        rw [if_neg fun hc => hc.1 hp8]
        exact Option.some.inj h
      · rw [if_neg hp8] at h
        rcases ht : p.2.tput_per_gpu with _ | t
        · simp only [ht] at h
          exact Option.noConfusion h
        · simp only [ht] at h
          have htD : p.2.tputPerGpuD = t := by
            unfold BRec.tputPerGpuD
            rw [ht]
            rfl
          by_cases hgt : r.tputPerGpuD > t
          · rw [if_pos hgt] at h
            rw [if_pos ⟨hp8, htD ▸ hgt⟩]
            exact Option.some.inj h
          · rw [if_neg hgt] at h
            rw [if_neg fun hc => hgt (htD ▸ hc.2)]
            exact Option.some.inj h

theorem foldlME_agrees :
    ∀ (rs : List BRec) (m0 m : List (Int × BRec)),
      List.foldlM updateBestE m0 rs = some m → rs.foldl updateBest m0 = m := by
  intro rs
  induction rs with
  | nil =>
      intro m0 m h
      simpa using h
  | cons r t ih =>
      intro m0 m h
      rw [List.foldlM_cons] at h
      rcases h1 : updateBestE m0 r with _ | m1
      · rw [h1] at h
        exact absurd h (by simp)
      · rw [h1] at h
        rw [List.foldl_cons, updateBestE_agrees h1]
        exact ih m1 m (by simpa using h)

theorem bestByConcE_agrees {rs : List BRec} {m : List (Int × BRec)}
    (h : bestByConcE rs = some m) : bestByConc rs = m :=
  foldlME_agrees rs [] m h

theorem load_b200E_agrees {rs : List BRec} {pr : List BRec × List BRec}
    (h : load_b200_trt_resultsE rs = some pr) : load_b200_trt_results rs = pr := by
  unfold load_b200_trt_resultsE at h
  rcases hb : bestByConcE (rs.filter isB200Trt) with _ | best
  · simp only [hb] at h
    exact Option.noConfusion h
  · simp only [hb] at h
    show (sSort BRec.concD ((bestByConc (rs.filter isB200Trt)).map Prod.snd),
      rs.filter isB200Trt) = pr
    rw [bestByConcE_agrees hb]
    exact Option.some.inj h

/-- The KeyError path is reachable on parsed inputs: two bare b200-trt
records collide at the defaulted concurrency 0, the stored best has degree
0 (not 8) and no per-unit-throughput field, so the comparison at line 77
raises and the whole load returns no value. -/
theorem keyError_reachable :
    updateBestE [(0, bareB200)] bareB200 = none ∧
      load_b200_trt_resultsE [bareB200, bareB200] = none := by
  exact ⟨by decide, by decide⟩

/-! Claim theorems. -/

/-- C3: in Loader B's per-concurrency selection, a degree-8 candidate always
replaces the current best regardless of per-unit throughput — at every
processing step, for every dictionary and every stored best; concretely,
with two records at concurrency 16 — first degree 2 with per-unit 500, then
degree 8 with per-unit 400 — the selected best is the degree-8 record and
its comparable throughput is 400, used as-is. -/
theorem c3_tp8_absolute_preference :
    (∀ (m : List (Int × BRec)) (r cur : BRec),
        bestAt m r.concD = some cur → r.tpD = 8 →
        bestAt (updateBest m r) r.concD = some r) ∧
      (load_b200_trt_results [b16tp2, b16tp8]).1 = [b16tp8] ∧
      BRec.tpD b16tp8 = 8 ∧ b200TputValue b16tp8 = 400 := by
  refine ⟨?_, by decide, by decide, by decide⟩
  intro m r cur h1 h8
  exact bestAt_updateBest_tp8 h1 h8

/-- Witness for C3: the degree-8 candidate with the lower per-unit
throughput (400) displaces the stored degree-2 best with the higher one
(500). -/
theorem c3_tp8_absolute_preference_witness :
    bestAt (updateBest [(16, b16tp2)] b16tp8) (BRec.concD b16tp8) = some b16tp8 :=
  c3_tp8_absolute_preference.1 [(16, b16tp2)] b16tp8 b16tp2 (by decide) (by decide)

/-- C5: every record of Loader B's bestPerConcurrency gets comparable
throughput equal to its per-unit throughput when the degree is 8, and
per-unit throughput times the degree otherwise; a single record at
concurrency 32 with degree 2 and per-unit 300 yields 600. -/
theorem c5_b200_comparable_tput :
    (∀ (bs : List BRec) (r : BRec), r ∈ (load_b200_trt_results bs).1 →
        b200TputValue r =
          if r.tpD = 8 then r.tputPerGpuD else r.tputPerGpuD * (r.tpD : ℚ)) ∧
      (load_b200_trt_results [b32tp2]).1 = [b32tp2] ∧ b200TputValue b32tp2 = 600 := by
  refine ⟨fun bs r _ => rfl, by decide, ?_⟩
  norm_num [b200TputValue, b32tp2, BRec.tpD, BRec.tputPerGpuD]

/-- Witness for C5 at a concrete loader output. -/
theorem c5_b200_comparable_tput_witness :
    b200TputValue b16tp8 =
      if BRec.tpD b16tp8 = 8 then BRec.tputPerGpuD b16tp8
      else BRec.tputPerGpuD b16tp8 * (BRec.tpD b16tp8 : ℚ) :=
  c5_b200_comparable_tput.1 [b16tp8] b16tp8 (by decide)

/-- C2 counterexample: the claim also forbids a later degree-8 record from
replacing a selected degree-8 best, but the source always replaces on a
degree-8 candidate: with two degree-8 records at concurrency 16, the later
one ends up in bestPerConcurrency. -/
theorem c2_tp8_replaced_by_later_tp8_cex :
    BRec.tpD b16tp8Early = 8 ∧ BRec.tpD b16tp8Late = 8 ∧ b16tp8Early ≠ b16tp8Late ∧
      (load_b200_trt_results [b16tp8Early]).1 = [b16tp8Early] ∧
      (load_b200_trt_results [b16tp8Early, b16tp8Late]).1 = [b16tp8Late] := by
  exact ⟨by decide, by decide, by decide, by decide, by decide⟩

/-- C2 amended: once a degree-8 record is the stored best for a concurrency
value, no later record with degree different from 8 replaces it at any
processing step; a later degree-8 record at the same concurrency, however,
does replace it (the last degree-8 record wins). -/
theorem c2_tp8_selection_amended :
    (∀ (m : List (Int × BRec)) (r : BRec) (k : Int) (cur : BRec),
        bestAt m k = some cur → cur.tpD = 8 → r.tpD ≠ 8 →
        bestAt (updateBest m r) k = some cur) ∧
    (∀ (m : List (Int × BRec)) (r cur : BRec),
        bestAt m r.concD = some cur → r.tpD = 8 →
        bestAt (updateBest m r) r.concD = some r) := by
  constructor
  · intro m r k cur h1 h8 hn8
    by_cases hk : k = r.concD
    · subst hk
      exact bestAt_updateBest_keep h1 h8 hn8
    · rw [bestAt_updateBest_other hk]
      exact h1
  · intro m r cur h1 h8
    exact bestAt_updateBest_tp8 h1 h8

/-- Witness for C2 at a concrete dictionary and candidate. -/
theorem c2_tp8_selection_witness :
    bestAt (updateBest [(16, b16tp8Early)] b16tp2) 16 = some b16tp8Early :=
  c2_tp8_selection_amended.1 [(16, b16tp8Early)] b16tp2 16 b16tp8Early
    (by decide) (by decide) (by decide)

/-- C8: for every input array, bestPerConcurrency holds at most one record
per concurrency value and is sorted ascending by concurrency (the keys are
distinct, so the order is strictly increasing). -/
theorem c8_best_unique_sorted (rs : List BRec) :
    ((load_b200_trt_results rs).1).Pairwise fun a b => BRec.concD a < BRec.concD b := by
  have hinv := invB_bestByConc (rs.filter isB200Trt)
  have hsorted := sorted_sSort BRec.concD ((bestByConc (rs.filter isB200Trt)).map Prod.snd)
  have hmap : ((bestByConc (rs.filter isB200Trt)).map Prod.snd).map BRec.concD =
      (bestByConc (rs.filter isB200Trt)).map Prod.fst := by
    rw [List.map_map]
    exact List.map_congr_left fun p hp => hinv.2 p hp
  have hnodup : (((bestByConc (rs.filter isB200Trt)).map Prod.snd).map BRec.concD).Nodup := by
    rw [hmap]
    exact hinv.1
  have hne : ((bestByConc (rs.filter isB200Trt)).map Prod.snd).Pairwise
      fun a b => BRec.concD a ≠ BRec.concD b := by
    rw [List.Nodup, List.pairwise_map] at hnodup
    exact hnodup
  have hperm := perm_sSort BRec.concD ((bestByConc (rs.filter isB200Trt)).map Prod.snd)
  have hne2 : (sSort BRec.concD ((bestByConc (rs.filter isB200Trt)).map Prod.snd)).Pairwise
      fun a b => BRec.concD a ≠ BRec.concD b :=
    (hperm.pairwise_iff fun h => Ne.symm h).mpr hne
  show (sSort BRec.concD ((bestByConc (rs.filter isB200Trt)).map Prod.snd)).Pairwise _
  exact (hsorted.and hne2).imp fun h => lt_of_le_of_ne h.1 h.2

/-- C4: a Series-A record is excluded exactly when its completed count is
below 10 or a known total-request count is present and the completion ratio
is below one half (for inputs whose present totals are positive, the claim's
own implicit domain — a present total of 0 is settled by C10); in
particular completed 5 of 100 and 10 of 100 are excluded, 60 of 100 is
included, and 20 with no total field is included. -/
theorem c4_reliability_filter :
    (∀ r : ARec, (hasKnownTotal r → 0 < resolveTotal r) →
        (isUnreliable r ↔ specExcluded r)) ∧
      isUnreliable ⟨1, some 5, some 100, none, none, none⟩ ∧
      isUnreliable ⟨1, some 10, some 100, none, none, none⟩ ∧
      ¬ isUnreliable ⟨1, some 60, some 100, none, none, none⟩ ∧
      ¬ isUnreliable ⟨1, some 20, none, none, none, none⟩ := by
  refine ⟨?_, by decide, ?_, ?_, ?_⟩
  · intro r h
    unfold isUnreliable specExcluded
    constructor
    · rintro (hc | ⟨hpos, hlt⟩)
      · exact Or.inl hc
      · by_cases hk : hasKnownTotal r
        · exact Or.inr ⟨hk, hlt⟩
        · exfalso
          unfold hasKnownTotal at hk
          push_neg at hk
          have htr : r.total_requests = none := by
            cases hcase : r.total_requests with
            | none => rfl
            | some t => rw [hcase] at hk; simp at hk
          have hnp : r.num_prompts = none := by
            cases hcase : r.num_prompts with
            | none => rfl
            | some t => rw [hcase] at hk; simp at hk
          have hres : resolveTotal r = r.completedD := by
            unfold resolveTotal
            rw [htr, hnp]
            rfl
          rw [hres] at hpos hlt
          have hne : (r.completedD : ℚ) ≠ 0 := by
            exact_mod_cast ne_of_gt hpos
          rw [div_self hne] at hlt
          norm_num at hlt
    · rintro (hc | ⟨hk, hlt⟩)
      · exact Or.inl hc
      · exact Or.inr ⟨h hk, hlt⟩
  · norm_num [isUnreliable, ARec.completedD, resolveTotal]
  · norm_num [isUnreliable, ARec.completedD, resolveTotal]
  · norm_num [isUnreliable, ARec.completedD, resolveTotal]

/-- Witness for C4 at a concrete record with a positive known total. -/
theorem c4_reliability_filter_witness :
    isUnreliable ⟨1, some 60, some 100, none, none, none⟩ ↔
      specExcluded ⟨1, some 60, some 100, none, none, none⟩ :=
  c4_reliability_filter.1 ⟨1, some 60, some 100, none, none, none⟩ (by decide)

/-- C10: the completion-ratio division is guarded — when the resolved total
is zero or negative the record is judged by the completed-at-least-10 floor
alone, and only for a strictly positive resolved total does the ratio test
take part. -/
theorem c10_guarded_ratio :
    (∀ r : ARec, resolveTotal r ≤ 0 → (isUnreliable r ↔ r.completedD < 10)) ∧
    (∀ r : ARec, 0 < resolveTotal r →
        (isUnreliable r ↔ (r.completedD < 10 ∨
          (r.completedD : ℚ) / (resolveTotal r : ℚ) < 1 / 2))) := by
  constructor
  · intro r h
    unfold isUnreliable
    constructor
    · rintro (hc | ⟨hpos, _⟩)
      · exact hc
      · exact absurd hpos (not_lt.mpr h)
    · exact Or.inl
  · intro r h
    unfold isUnreliable
    constructor
    · rintro (hc | ⟨_, hlt⟩)
      · exact Or.inl hc
      · exact Or.inr hlt
    · rintro (hc | hlt)
      · exact Or.inl hc
      · exact Or.inr ⟨h, hlt⟩

/-- Witness for C10 at a record whose present total is 0. -/
theorem c10_guarded_ratio_witness :
    isUnreliable ⟨1, some 15, some 0, none, none, none⟩ ↔
      ARec.completedD ⟨1, some 15, some 0, none, none, none⟩ < 10 :=
  c10_guarded_ratio.1 ⟨1, some 15, some 0, none, none, none⟩ (by decide)

/-- C7: Loader A resolves a record's concurrency from the explicit
max_concurrency field when present, else from the leftmost filename
substring matching conc followed by digits (conc42 yields 42); records where
neither resolves are dropped, so the output length counts exactly the files
with a resolved concurrency. -/
theorem c7_concurrency_resolution :
    (∀ (f : AFile) (c : Int), f.max_concurrency = some c → resolveConc f = some c) ∧
    (∀ f : AFile, f.max_concurrency = none →
        resolveConc f = (searchConc f.stem.toList).map Int.ofNat) ∧
    (∀ files : List AFile, (load_baseten_results files).length =
        (files.filter fun f => (resolveConc f).isSome).length) ∧
    resolveConc ⟨"run_conc42_result", none, none, none, none, none, none⟩ = some 42 ∧
    load_baseten_results [⟨"nodigits", none, some 50, none, none, none, none⟩] = [] := by
  refine ⟨?_, ?_, ?_, by decide, by decide⟩
  · intro f c h
    unfold resolveConc
    rw [h]
  · intro f h
    unfold resolveConc
    rw [h]
  · intro files
    unfold load_baseten_results
    rw [(perm_sSort ARec.concurrency _).length_eq]
    induction files with
    | nil => rfl
    | cons f t ih =>
        rcases hf : resolveConc f with _ | c <;>
          simp [List.filterMap_cons, List.filter_cons, hf, ih]

/-- Witness for C7: the explicit field is preferred. -/
theorem c7_concurrency_resolution_witness :
    resolveConc ⟨"run_conc42_result", some 7, none, none, none, none, none⟩ = some 7 :=
  c7_concurrency_resolution.1 ⟨"run_conc42_result", some 7, none, none, none, none, none⟩ 7 rfl

/-- C1 counterexample: the claim says that when no Series-B record exists at
a concurrency, a reliable Series-A record's comparable throughput is its
aggregate divided by 8; but with an empty best set, the source leaves the
aggregate (800) unmodified rather than producing 100. -/
theorem c1_no_b_record_divides_cex :
    ¬ isUnreliable aConc5 ∧
      b200TpAtConc [] aConc5.concurrency = none ∧
      basetenTputValue [] aConc5 = 800 ∧
      basetenTputValue [] aConc5 ≠
        aConc5.total_token_throughput.getD 0 / BASETEN_GPU_COUNT := by
  refine ⟨?_, rfl, by decide, ?_⟩
  · norm_num [isUnreliable, ARec.completedD, resolveTotal, aConc5]
  · rw [show basetenTputValue [] aConc5 = 800 from by decide]
    norm_num [aConc5, BASETEN_GPU_COUNT]

/-- C1 amended: a reliable Series-A record's comparable throughput is its
aggregate divided by the fixed unit count 8 exactly when Series B's best
set holds a record at the same concurrency with degree 8 (first match in
order); otherwise — a B record with a different degree, or no B record at
that concurrency — the aggregate is used unmodified. -/
theorem c1_series_a_normalization_amended :
    ∀ (best : List BRec) (r : ARec), r.concurrency ≠ 0 → ¬ isUnreliable r →
      ((b200TpAtConc best r.concurrency = some 8 →
          basetenTputValue best r =
            r.total_token_throughput.getD 0 / BASETEN_GPU_COUNT) ∧
       (b200TpAtConc best r.concurrency ≠ some 8 →
          basetenTputValue best r = r.total_token_throughput.getD 0)) := by
  intro best r _ _
  unfold basetenTputValue
  constructor
  · intro h
    rw [if_pos h]
  · intro h
    rw [if_neg h]

/-- Witness for C1 at a reliable record and an empty best set. -/
theorem c1_series_a_normalization_witness :
    basetenTputValue [] aConc5Tot0 = aConc5Tot0.total_token_throughput.getD 0 :=
  (c1_series_a_normalization_amended [] aConc5Tot0 (by decide) (by decide)).2 (by decide)

/-- C6 counterexample: a run where the only Series-A record fails the
reliability filter (0 completed requests) still exits 0 — the emptiness
checks run before the reliability filter, so zero usable records after that
filter do not cause a non-zero exit. -/
theorem c6_reliability_not_fatal_cex :
    mainExitCode 3 true true [aFileUnreliable] [b4tp8] = 0 ∧
      load_baseten_results [aFileUnreliable] ≠ [] ∧
      basetenPoints (load_b200_trt_results [b4tp8]).1
        (load_baseten_results [aFileUnreliable]) = [] := by
  exact ⟨by decide, by decide, by decide⟩

/-- C6 amended: the exit status is non-zero exactly when fewer than two
arguments are given, one of the two input paths does not exist, Loader B's
selection crashes (uncaught KeyError on a stored best lacking the
per-unit-throughput field), Loader A yields no records (after
concurrency-resolution drops), or Loader B's best set is empty (after the
hardware filter); records discarded later by the reliability filter do not
affect the exit status. -/
theorem c6_exit_code_amended :
    ∀ (argc : Nat) (dirExists jsonExists : Bool) (files : List AFile) (bData : List BRec),
      mainExitCode argc dirExists jsonExists files bData ≠ 0 ↔
        (argc < 3 ∨ dirExists = false ∨ jsonExists = false ∨
          load_b200_trt_resultsE bData = none ∨
          load_baseten_results files = [] ∨
          (load_b200_trt_resultsE bData).map Prod.fst = some []) := by
  intro argc d j files bData
  unfold mainExitCode
  rcases hB : load_b200_trt_resultsE bData with _ | pr
  · show (if argc < 3 then 1 else if !d then 1 else if !j then 1 else 1) ≠ 0 ↔ _
    split_ifs with h1 h2 h3 <;>
      simp_all [Bool.not_eq_true']
  · show (if argc < 3 then 1 else if !d then 1 else if !j then 1
      else if (load_baseten_results files).isEmpty then 1
      else if pr.1.isEmpty then 1 else 0) ≠ 0 ↔ _
    split_ifs with h1 h2 h3 h4 h5 <;>
      simp_all [List.isEmpty_iff, Bool.not_eq_true']

/-- C9 counterexample: a best record with degree 1 (not 8) is plotted at the
same throughput value in both charts — 300 per-unit in the detailed chart
and 300 × 1 = 300 in the clean chart — refuting the claim that a best record
with degree different from 8 always lands at a different value. -/
theorem c9_same_value_at_tp1_cex :
    BRec.tpD b16tp1 ≠ 8 ∧ (load_b200_trt_results [b16tp1]).1 = [b16tp1] ∧
      detailedTput b16tp1 = b200TputValue b16tp1 := by
  refine ⟨by decide, by decide, ?_⟩
  norm_num [detailedTput, b200TputValue, b16tp1, BRec.tputPerGpuD, BRec.tpD]

/-- C9 amended: the detailed chart plots every Series-B point — the
highlighted best records included — with the per-unit throughput field
as-is, with no multiplication by the parallelism degree; consequently a best
record with degree different from 8 appears at a different value there than
in the clean chart exactly when per-unit throughput times the degree differs
from the per-unit throughput (for degree 1, or a zero per-unit value, the
two charts coincide). -/
theorem c9_detailed_per_unit_amended :
    (∀ rs : List BRec, detailedAllTputs rs = rs.map BRec.tputPerGpuD) ∧
    (∀ best : List BRec, detailedBestTputs best = best.map BRec.tputPerGpuD) ∧
    (∀ r : BRec, r.tpD ≠ 8 →
        (detailedTput r = b200TputValue r ↔
          r.tputPerGpuD * (r.tpD : ℚ) = r.tputPerGpuD)) := by
  refine ⟨fun rs => rfl, fun best => rfl, ?_⟩
  intro r h
  unfold detailedTput b200TputValue
  rw [if_neg h]
  exact eq_comm

/-- Witness for C9 at the degree-1 record. -/
theorem c9_detailed_per_unit_witness :
    detailedTput b16tp1 = b200TputValue b16tp1 ↔
      BRec.tputPerGpuD b16tp1 * (BRec.tpD b16tp1 : ℚ) = BRec.tputPerGpuD b16tp1 :=
  c9_detailed_per_unit_amended.2.2 b16tp1 (by decide)

end PlotBasetenVsB200
